import Mathlib

/-!
Verification of the Snowflake ID generator (src/src/main.rs).

The Rust program is embedded shallowly:
- machine integers (u64) are modelled as Nat with explicit wrapping mod 2^64
  where the source performs unsigned arithmetic that can wrap
  (the subtraction and shift in the encode step of next_id);
- the wall clock is a pure function from a read counter to milliseconds:
  the k-th call to current_timestamp in an execution returns clock k;
- the busy-wait loops carry fuel and return none when the fuel runs out,
  mirroring an execution in which the clock never advances.
-/

namespace SnowflakeRS

-- Bit widths, from the constant block of main.rs.
def SIGN_BITS : Nat := 1
def TIMESTAMP_BITS : Nat := 41
def DATACENTER_BITS : Nat := 5
def MACHINE_BITS : Nat := 5
def SEQUENCE_BITS : Nat := 12

-- Bit shifts.
def MACHINE_SHIFT : Nat := SEQUENCE_BITS
def DATACENTER_SHIFT : Nat := MACHINE_SHIFT + MACHINE_BITS
def TIMESTAMP_SHIFT : Nat := DATACENTER_SHIFT + DATACENTER_BITS

-- Max values.
def MAX_DATACENTER : Nat := (1 <<< DATACENTER_BITS) - 1
def MAX_MACHINE : Nat := (1 <<< MACHINE_BITS) - 1
def MAX_SEQUENCE : Nat := (1 <<< SEQUENCE_BITS) - 1

-- Twitter custom epoch, milliseconds since the Unix epoch.
def CUSTOM_EPOCH : Nat := 1288834974657

-- u64 wrap-around arithmetic.
def U64_MOD : Nat := 2 ^ 64

def u64_wrap (x : Nat) : Nat := x % U64_MOD

-- Wrapping unsigned 64-bit subtraction (release-mode Rust semantics of a - b).
def u64_sub (a b : Nat) : Nat := (u64_wrap a + U64_MOD - u64_wrap b) % U64_MOD

-- The generator state: struct Snowflake of main.rs.  The two atomics are
-- modelled by their plain values; interleaving of their loads and stores is
-- modelled separately (see the thread machine at the end of the file).
structure Snowflake where
  datacenter_id : Nat
  machine_id : Nat
  sequence : Nat
  last_timestamp : Nat
deriving DecidableEq, Repr

-- Snowflake::new.  The two panics are modelled as none.
def Snowflake.new (datacenter_id machine_id : Nat) : Option Snowflake :=
  if datacenter_id > MAX_DATACENTER then none
  else if machine_id > MAX_MACHINE then none
  else some ⟨datacenter_id, machine_id, 0, 0⟩

-- Snowflake::wait_next_millis.  Reads the clock once per iteration and loops
-- while the reading is ≤ last; returns the first strictly greater reading
-- together with the next unused read index.  Fuel bounds the number of reads.
def Snowflake.wait_next_millis (clock : Nat → Nat) (last : Nat) :
    Nat → Nat → Option (Nat × Nat)
  | 0, _ => none
  | fuel + 1, n =>
    if clock n ≤ last then Snowflake.wait_next_millis clock last fuel (n + 1)
    else some (clock n, n + 1)

-- The return expression of Snowflake::next_id, in u64 arithmetic:
-- ((timestamp - CUSTOM_EPOCH) << TIMESTAMP_SHIFT) | (dc << DATACENTER_SHIFT)
--   | (mc << MACHINE_SHIFT) | seq.
def Snowflake.encode_u64 (timestamp dc mc seq : Nat) : Nat :=
  u64_wrap (u64_sub timestamp CUSTOM_EPOCH <<< TIMESTAMP_SHIFT) |||
  u64_wrap (dc <<< DATACENTER_SHIFT) |||
  u64_wrap (mc <<< MACHINE_SHIFT) |||
  u64_wrap seq

-- Snowflake::next_id.  Returns (id, new generator state, next read index).
def Snowflake.next_id (clock : Nat → Nat) (fuel : Nat) (g : Snowflake) (n : Nat) :
    Option (Nat × Snowflake × Nat) :=
  match (if clock n < g.last_timestamp
         then Snowflake.wait_next_millis clock g.last_timestamp fuel (n + 1)
         else some (clock n, n + 1)) with
  | none => none
  | some (ts1, n1) =>
    if ts1 = g.last_timestamp then
      let next := (g.sequence + 1) &&& MAX_SEQUENCE
      if next = 0 then
        match Snowflake.wait_next_millis clock g.last_timestamp fuel n1 with
        | none => none
        | some (ts2, n2) =>
          some (Snowflake.encode_u64 ts2 g.datacenter_id g.machine_id next,
                { g with sequence := next, last_timestamp := ts2 }, n2)
      else
        some (Snowflake.encode_u64 ts1 g.datacenter_id g.machine_id next,
              { g with sequence := next, last_timestamp := ts1 }, n1)
    else
      some (Snowflake.encode_u64 ts1 g.datacenter_id g.machine_id 0,
            { g with sequence := 0, last_timestamp := ts1 }, n1)

-- Snowflake::decode: (timestamp, datacenter, machine, sequence).
def Snowflake.decode (id : Nat) : Nat × Nat × Nat × Nat :=
  ((id >>> TIMESTAMP_SHIFT) + CUSTOM_EPOCH,
   (id >>> DATACENTER_SHIFT) &&& MAX_DATACENTER,
   (id >>> MACHINE_SHIFT) &&& MAX_MACHINE,
   id &&& MAX_SEQUENCE)

-- N sequential calls to next_id, collecting the returned ids.
def Snowflake.runN (clock : Nat → Nat) (fuel : Nat) :
    Nat → Snowflake → Nat → Option (List Nat × Snowflake × Nat)
  | 0, g, n => some ([], g, n)
  | k + 1, g, n =>
    match Snowflake.next_id clock fuel g n with
    | none => none
    | some (id, g1, n1) =>
      match Snowflake.runN clock fuel k g1 n1 with
      | none => none
      | some (ids, g2, n2) => some (id :: ids, g2, n2)

-- ------------------------------------------------------------------
-- Concrete clock environments used by the theorems
-- ------------------------------------------------------------------

-- A clock frozen at the custom epoch.
def clock_epoch : Nat → Nat := fun _ => CUSTOM_EPOCH

-- A clock sitting exactly 2^42 ms past the custom epoch.
def clock_big : Nat → Nat := fun _ => CUSTOM_EPOCH + 2 ^ 42

-- A clock far before the custom epoch.
def clock_low : Nat → Nat := fun _ => 1000

-- A never-backward clock whose readings straddle the custom epoch.
def clock_cross : Nat → Nat := fun n => if n = 0 then CUSTOM_EPOCH - 1 else CUSTOM_EPOCH

-- A clock for the regression scenario: first read below the stored
-- last_timestamp (epoch+100), the first re-read equal to it, the next above.
def clock_back : Nat → Nat := fun n =>
  if n = 0 then CUSTOM_EPOCH + 50
  else if n = 1 then CUSTOM_EPOCH + 100
  else CUSTOM_EPOCH + 101

-- A clock held at one millisecond for 4097 reads, then one ms later.
def clock_hold : Nat → Nat := fun n =>
  if n < 4097 then CUSTOM_EPOCH else CUSTOM_EPOCH + 1

-- The 4097 ids produced under clock_hold from a fresh generator (1, 1).
def ids_C5 : List Nat :=
  (List.range' 0 4096).map (fun q => Snowflake.encode_u64 CUSTOM_EPOCH 1 1 q) ++
  [Snowflake.encode_u64 (CUSTOM_EPOCH + 1) 1 1 0]

-- ------------------------------------------------------------------
-- Interleaving machine for two concurrent next_id calls
--
-- The Rust generator stores sequence and last_timestamp in two separate
-- AtomicU64 cells accessed with Ordering::Relaxed.  Each next_id call
-- performs, in order: a clock read, an atomic load of last_timestamp, an
-- atomic load of sequence (in the same-millisecond branch), an atomic store
-- of sequence and an atomic store of last_timestamp.  The machine below
-- makes each of those accesses one atomic step and lets a scheduler
-- interleave two calls.  The clock is held at one value, i.e. both calls
-- run inside a single millisecond.
-- ------------------------------------------------------------------

structure Shared where
  sequence : Nat
  last_timestamp : Nat
deriving DecidableEq, Repr

structure ThreadState where
  pc : Nat
  timestamp : Nat
  last_ts : Nat
  seq : Nat
  result : Option Nat
deriving DecidableEq, Repr

-- pc 0: timestamp := current_timestamp()
-- pc 1: last_ts := last_timestamp.load(Relaxed)
-- pc 2: branch on timestamp < last_ts (clock rollback check)
-- pc 3: branch on timestamp == last_ts
-- pc 4: seq := (sequence.load(Relaxed) + 1) & MAX_SEQUENCE
-- pc 5: branch on seq == 0 (exhaustion check)
-- pc 6: sequence.store(seq, Relaxed)
-- pc 7: last_timestamp.store(timestamp, Relaxed); return the encoded id
-- pc 8: done
-- pc 10: rollback wait loop (one clock re-read per step)
-- pc 11: exhaustion wait loop (one clock re-read per step)
def threadStep (clockVal dc mc : Nat) (sh : Shared) (t : ThreadState) :
    Shared × ThreadState :=
  match t.pc with
  | 0 => (sh, { t with timestamp := clockVal, pc := 1 })
  | 1 => (sh, { t with last_ts := sh.last_timestamp, pc := 2 })
  | 2 =>
    if t.timestamp < t.last_ts then (sh, { t with pc := 10 })
    else (sh, { t with pc := 3 })
  | 3 =>
    if t.timestamp = t.last_ts then (sh, { t with pc := 4 })
    else (sh, { t with seq := 0, pc := 6 })
  | 4 => (sh, { t with seq := (sh.sequence + 1) &&& MAX_SEQUENCE, pc := 5 })
  | 5 =>
    if t.seq = 0 then (sh, { t with pc := 11 })
    else (sh, { t with pc := 6 })
  | 6 => ({ sh with sequence := t.seq }, { t with pc := 7 })
  | 7 =>
    ({ sh with last_timestamp := t.timestamp },
     { t with result := some (Snowflake.encode_u64 t.timestamp dc mc t.seq), pc := 8 })
  | 10 =>
    if clockVal ≤ t.last_ts then (sh, { t with timestamp := clockVal, pc := 10 })
    else (sh, { t with timestamp := clockVal, pc := 3 })
  | 11 =>
    if clockVal ≤ t.last_ts then (sh, { t with pc := 11 })
    else (sh, { t with timestamp := clockVal, pc := 6 })
  | _ => (sh, t)

structure Sys where
  shared : Shared
  tA : ThreadState
  tB : ThreadState
deriving DecidableEq, Repr

-- true schedules thread A for one atomic step, false thread B.
def sysStep (clockVal dc mc : Nat) (s : Sys) (choice : Bool) : Sys :=
  if choice then
    let r := threadStep clockVal dc mc s.shared s.tA
    { s with shared := r.1, tA := r.2 }
  else
    let r := threadStep clockVal dc mc s.shared s.tB
    { s with shared := r.1, tB := r.2 }

def runSched (clockVal dc mc : Nat) : List Bool → Sys → Sys
  | [], s => s
  | c :: cs, s => runSched clockVal dc mc cs (sysStep clockVal dc mc s c)

-- Both threads pass their loads before either stores: A runs pc 0..3,
-- B runs pc 0..3, then each finishes with its stores.
def schedAB : List Bool :=
  [true, true, true, true, false, false, false, false, true, true, false, false]

-- A fully sequential schedule: A completes its call, then B runs.
def schedSeq : List Bool :=
  [true, true, true, true, true, true,
   false, false, false, false, false, false, false, false]

def sysInit : Sys :=
  ⟨⟨0, 0⟩, ⟨0, 0, 0, 0, none⟩, ⟨0, 0, 0, 0, none⟩⟩

-- ------------------------------------------------------------------
-- Helper lemmas
-- ------------------------------------------------------------------

lemma TIMESTAMP_SHIFT_eq : TIMESTAMP_SHIFT = 22 := by decide

lemma DATACENTER_SHIFT_eq : DATACENTER_SHIFT = 17 := by decide

lemma MACHINE_SHIFT_eq : MACHINE_SHIFT = 12 := by decide

lemma MAX_SEQUENCE_eq : MAX_SEQUENCE = 2 ^ 12 - 1 := by decide

lemma MAX_MACHINE_eq : MAX_MACHINE = 2 ^ 5 - 1 := by decide

lemma MAX_DATACENTER_eq : MAX_DATACENTER = 2 ^ 5 - 1 := by decide

lemma CUSTOM_EPOCH_eq : CUSTOM_EPOCH = 1288834974657 := rfl

lemma u64_wrap_eq_of_lt {x : Nat} (h : x < U64_MOD) : u64_wrap x = x :=
  Nat.mod_eq_of_lt h

lemma u64_sub_eq_of_le {a b : Nat} (hb : b ≤ a) (ha : a < U64_MOD) :
    u64_sub a b = a - b := by
  unfold u64_sub u64_wrap U64_MOD at *
  omega

lemma seq_mask_le (x : Nat) : x &&& MAX_SEQUENCE ≤ 4095 := by
  rw [MAX_SEQUENCE_eq, Nat.and_pow_two_sub_one_eq_mod]
  omega

-- The encode expression, under in-range inputs, is plain (wrap-free)
-- positional arithmetic.
lemma encode_u64_eq (ts dc mc s : Nat) (h1 : CUSTOM_EPOCH ≤ ts)
    (h2 : ts < CUSTOM_EPOCH + 2 ^ 42) (h3 : dc ≤ 31) (h4 : mc ≤ 31) (h5 : s ≤ 4095) :
    Snowflake.encode_u64 ts dc mc s =
      (ts - CUSTOM_EPOCH) * 2 ^ 22 + dc * 2 ^ 17 + mc * 2 ^ 12 + s := by
  have hsub : u64_sub ts CUSTOM_EPOCH = ts - CUSTOM_EPOCH :=
    u64_sub_eq_of_le h1 (by unfold U64_MOD CUSTOM_EPOCH at *; omega)
  unfold Snowflake.encode_u64
  rw [hsub, TIMESTAMP_SHIFT_eq, DATACENTER_SHIFT_eq, MACHINE_SHIFT_eq,
    Nat.shiftLeft_eq, Nat.shiftLeft_eq, Nat.shiftLeft_eq]
  have hts : ts - CUSTOM_EPOCH < 2 ^ 42 := by unfold CUSTOM_EPOCH at *; omega
  rw [u64_wrap_eq_of_lt (by unfold U64_MOD; omega),
    u64_wrap_eq_of_lt (by unfold U64_MOD; omega),
    u64_wrap_eq_of_lt (by unfold U64_MOD; omega),
    u64_wrap_eq_of_lt (by unfold U64_MOD; omega)]
  rw [Nat.or_assoc, Nat.or_assoc]
  have e12 : mc * 2 ^ 12 ||| s = mc * 2 ^ 12 + s := by
    rw [Nat.mul_comm]
    exact (Nat.mul_add_lt_is_or (by omega) mc).symm
  have e17 : dc * 2 ^ 17 ||| (mc * 2 ^ 12 + s) = dc * 2 ^ 17 + (mc * 2 ^ 12 + s) := by
    rw [Nat.mul_comm]
    exact (Nat.mul_add_lt_is_or (by omega) dc).symm
  have e22 : (ts - CUSTOM_EPOCH) * 2 ^ 22 ||| (dc * 2 ^ 17 + (mc * 2 ^ 12 + s)) =
      (ts - CUSTOM_EPOCH) * 2 ^ 22 + (dc * 2 ^ 17 + (mc * 2 ^ 12 + s)) := by
    rw [Nat.mul_comm]
    exact (Nat.mul_add_lt_is_or (by omega) (ts - CUSTOM_EPOCH)).symm
  rw [e12, e17, e22]
  omega

-- Decoding positional arithmetic recovers the fields.
lemma decode_eq (off dc mc s : Nat) (h3 : dc ≤ 31) (h4 : mc ≤ 31) (h5 : s ≤ 4095) :
    Snowflake.decode (off * 2 ^ 22 + dc * 2 ^ 17 + mc * 2 ^ 12 + s) =
      (off + CUSTOM_EPOCH, dc, mc, s) := by
  unfold Snowflake.decode
  rw [TIMESTAMP_SHIFT_eq, DATACENTER_SHIFT_eq, MACHINE_SHIFT_eq,
    MAX_SEQUENCE_eq, MAX_MACHINE_eq, MAX_DATACENTER_eq,
    Nat.and_pow_two_sub_one_eq_mod, Nat.and_pow_two_sub_one_eq_mod,
    Nat.and_pow_two_sub_one_eq_mod,
    Nat.shiftRight_eq_div_pow, Nat.shiftRight_eq_div_pow, Nat.shiftRight_eq_div_pow]
  simp only [Prod.mk.injEq]
  refine ⟨by omega, by omega, by omega, by omega⟩

-- Full round trip on the pure encode/decode pair.
lemma decode_encode (ts dc mc s : Nat) (h1 : CUSTOM_EPOCH ≤ ts)
    (h2 : ts < CUSTOM_EPOCH + 2 ^ 42) (h3 : dc ≤ 31) (h4 : mc ≤ 31) (h5 : s ≤ 4095) :
    Snowflake.decode (Snowflake.encode_u64 ts dc mc s) = (ts, dc, mc, s) := by
  rw [encode_u64_eq ts dc mc s h1 h2 h3 h4 h5, decode_eq _ _ _ _ h3 h4 h5]
  simp only [Prod.mk.injEq, and_true, true_and]
  omega

-- Encoded ids are ordered by the (timestamp, sequence) pair, for a fixed
-- node identity and in-range fields.
lemma encode_lt_encode (dc mc t1 s1 t2 s2 : Nat) (hdc : dc ≤ 31) (hmc : mc ≤ 31)
    (h1 : CUSTOM_EPOCH ≤ t1) (h1' : t1 < CUSTOM_EPOCH + 2 ^ 42)
    (h2 : CUSTOM_EPOCH ≤ t2) (h2' : t2 < CUSTOM_EPOCH + 2 ^ 42)
    (hs1 : s1 ≤ 4095) (hs2 : s2 ≤ 4095)
    (hlex : t1 < t2 ∨ (t1 = t2 ∧ s1 < s2)) :
    Snowflake.encode_u64 t1 dc mc s1 < Snowflake.encode_u64 t2 dc mc s2 := by
  rw [encode_u64_eq t1 dc mc s1 h1 h1' hdc hmc hs1,
    encode_u64_eq t2 dc mc s2 h2 h2' hdc hmc hs2]
  rcases hlex with h | ⟨h, h'⟩
  · have : t1 - CUSTOM_EPOCH < t2 - CUSTOM_EPOCH := by unfold CUSTOM_EPOCH at *; omega
    omega
  · omega

-- What a successful busy-wait returns: the first strictly greater clock
-- reading, every earlier re-read having been at most last.
lemma wait_next_millis_spec (clock : Nat → Nat) (last : Nat) :
    ∀ fuel n ts m, Snowflake.wait_next_millis clock last fuel n = some (ts, m) →
      last < ts ∧ n < m ∧ ts = clock (m - 1) ∧
      ∀ j, n ≤ j → j < m - 1 → clock j ≤ last := by
  intro fuel
  induction fuel with
  | zero =>
    intro n ts m h
    simp [Snowflake.wait_next_millis] at h
  | succ fuel ih =>
    intro n ts m h
    unfold Snowflake.wait_next_millis at h
    by_cases hc : clock n ≤ last
    · rw [if_pos hc] at h
      obtain ⟨h1, h2, h3, h4⟩ := ih (n + 1) ts m h
      refine ⟨h1, by omega, h3, ?_⟩
      intro j hj1 hj2
      rcases Nat.eq_or_lt_of_le hj1 with hj | hj
      · subst hj; exact hc
      · exact h4 j (by omega) hj2
    · rw [if_neg hc] at h
      simp only [Option.some.injEq, Prod.mk.injEq] at h
      obtain ⟨h1, h2⟩ := h
      subst h1; subst h2
      refine ⟨by omega, by omega, by simp, ?_⟩
      intro j hj1 hj2
      omega

-- Shape of any successful next_id call: the returned id is the encoding of
-- the committed timestamp and sequence, node identity is unchanged, and the
-- committed sequence fits in 12 bits.
lemma next_id_shape (clock : Nat → Nat) (fuel : Nat) (g : Snowflake) (n : Nat)
    (id : Nat) (g' : Snowflake) (n' : Nat)
    (h : Snowflake.next_id clock fuel g n = some (id, g', n')) :
    id = Snowflake.encode_u64 g'.last_timestamp g.datacenter_id g.machine_id g'.sequence ∧
    g'.datacenter_id = g.datacenter_id ∧ g'.machine_id = g.machine_id ∧
    g'.sequence ≤ 4095 := by
  obtain ⟨dc, mc, s, last⟩ := g
  unfold Snowflake.next_id at h
  split at h
  · exact absurd h (by simp)
  · rename_i ts1 n1 heq1
    split at h
    · dsimp only at h
      split at h
      · rename_i hz
        split at h
        · exact absurd h (by simp)
        · rename_i ts2 n2 heq2
          simp only [Option.some.injEq, Prod.mk.injEq] at h
          obtain ⟨h1, h2, h3⟩ := h
          subst h1; subst h2; subst h3
          exact ⟨rfl, rfl, rfl, seq_mask_le _⟩
      · simp only [Option.some.injEq, Prod.mk.injEq] at h
        obtain ⟨h1, h2, h3⟩ := h
        subst h1; subst h2; subst h3
        exact ⟨rfl, rfl, rfl, seq_mask_le _⟩
    · simp only [Option.some.injEq, Prod.mk.injEq] at h
      obtain ⟨h1, h2, h3⟩ := h
      subst h1; subst h2; subst h3
      exact ⟨rfl, rfl, rfl, Nat.zero_le 4095⟩

-- A call that observes a strictly newer millisecond commits it with sequence 0.
lemma next_id_new_ms (clock : Nat → Nat) (fuel : Nat) (dc mc s last n : Nat)
    (hc : last < clock n) :
    Snowflake.next_id clock fuel ⟨dc, mc, s, last⟩ n =
      some (Snowflake.encode_u64 (clock n) dc mc 0, ⟨dc, mc, 0, clock n⟩, n + 1) := by
  unfold Snowflake.next_id
  rw [if_neg (by dsimp only; omega)]
  dsimp only
  rw [if_neg (by omega)]

-- A call in the same millisecond, short of exhaustion, increments the sequence.
lemma next_id_same_ms (clock : Nat → Nat) (fuel : Nat) (dc mc s T n : Nat)
    (hc : clock n = T) (hs : s + 1 ≤ 4095) :
    Snowflake.next_id clock fuel ⟨dc, mc, s, T⟩ n =
      some (Snowflake.encode_u64 T dc mc (s + 1), ⟨dc, mc, s + 1, T⟩, n + 1) := by
  have hmask : (s + 1) &&& MAX_SEQUENCE = s + 1 := by
    rw [MAX_SEQUENCE_eq, Nat.and_pow_two_sub_one_eq_mod]
    omega
  unfold Snowflake.next_id
  rw [hc]
  rw [if_neg (by dsimp only; omega)]
  dsimp only
  rw [if_pos rfl, hmask, if_neg (by omega)]

-- An exhausted millisecond: the sequence wraps to 0 and the call commits the
-- timestamp delivered by the busy-wait.
lemma next_id_exhaust (clock : Nat → Nat) (fuel : Nat) (dc mc T n ts2 n2 : Nat)
    (hc : clock n = T)
    (hw : Snowflake.wait_next_millis clock T fuel (n + 1) = some (ts2, n2)) :
    Snowflake.next_id clock fuel ⟨dc, mc, 4095, T⟩ n =
      some (Snowflake.encode_u64 ts2 dc mc 0, ⟨dc, mc, 0, ts2⟩, n2) := by
  have hmask : (4095 + 1) &&& MAX_SEQUENCE = 0 := by decide
  unfold Snowflake.next_id
  rw [hc]
  rw [if_neg (by dsimp only; omega)]
  dsimp only
  rw [if_pos rfl, hmask, if_pos rfl, hw]

-- One step of next_id under a monotone, in-range clock: the committed pair
-- strictly increases lexicographically and every state invariant is kept.
lemma next_id_step (clock : Nat → Nat) (hmono : Monotone clock)
    (hlo : ∀ m, CUSTOM_EPOCH ≤ clock m) (hhi : ∀ m, clock m < CUSTOM_EPOCH + 2 ^ 42)
    (fuel : Nat) (g : Snowflake) (n : Nat)
    (hseq : g.sequence ≤ 4095) (hlast1 : g.last_timestamp ≤ clock n)
    (id : Nat) (g' : Snowflake) (n' : Nat)
    (h : Snowflake.next_id clock fuel g n = some (id, g', n')) :
    id = Snowflake.encode_u64 g'.last_timestamp g.datacenter_id g.machine_id g'.sequence ∧
    g'.datacenter_id = g.datacenter_id ∧ g'.machine_id = g.machine_id ∧
    g'.sequence ≤ 4095 ∧
    CUSTOM_EPOCH ≤ g'.last_timestamp ∧ g'.last_timestamp < CUSTOM_EPOCH + 2 ^ 42 ∧
    n < n' ∧ g'.last_timestamp ≤ clock n' ∧
    (g.last_timestamp < g'.last_timestamp ∨
      (g.last_timestamp = g'.last_timestamp ∧ g'.sequence = g.sequence + 1)) := by
  obtain ⟨hid, hdc, hmc, hs'⟩ := next_id_shape clock fuel g n id g' n' h
  obtain ⟨dc, mc, s, last⟩ := g
  dsimp only at hseq hlast1 hid hdc hmc ⊢
  rcases Nat.lt_or_ge last (clock n) with hnew | hold
  · -- strictly newer millisecond
    rw [next_id_new_ms clock fuel dc mc s last n hnew] at h
    simp only [Option.some.injEq, Prod.mk.injEq] at h
    obtain ⟨h1, h2, h3⟩ := h
    subst h2; subst h3
    refine ⟨hid, rfl, rfl, hs', hlo n, hhi n, by omega, hmono (by omega), by
      dsimp only; omega⟩
  · -- clock n = last (clock n < last is impossible by hlast1)
    have he : clock n = last := by omega
    rcases Nat.lt_or_ge s 4095 with hs | hs
    · rw [next_id_same_ms clock fuel dc mc s last n he (by omega)] at h
      simp only [Option.some.injEq, Prod.mk.injEq] at h
      obtain ⟨h1, h2, h3⟩ := h
      subst h2; subst h3
      refine ⟨hid, rfl, rfl, hs', ?_, ?_, by omega, ?_, by dsimp only; omega⟩
      · dsimp only; rw [← he]; exact hlo n
      · dsimp only; rw [← he]; exact hhi n
      · dsimp only; rw [← he]; exact hmono (by omega)
    · -- s = 4095: exhaustion
      have hs4095 : s = 4095 := by omega
      subst hs4095
      -- extract the successful wait from h
      have hw : ∃ ts2 n2,
          Snowflake.wait_next_millis clock last fuel (n + 1) = some (ts2, n2) := by
        unfold Snowflake.next_id at h
        rw [he] at h
        rw [if_neg (by dsimp only; omega)] at h
        dsimp only at h
        rw [if_pos rfl, (by decide : (4095 + 1) &&& MAX_SEQUENCE = 0), if_pos rfl] at h
        cases hwx : Snowflake.wait_next_millis clock last fuel (n + 1) with
        | none => rw [hwx] at h; exact absurd h (by simp)
        | some p => exact ⟨p.1, p.2, rfl⟩
      obtain ⟨ts2, n2, hwx⟩ := hw
      rw [next_id_exhaust clock fuel dc mc last n ts2 n2 he hwx] at h
      simp only [Option.some.injEq, Prod.mk.injEq] at h
      obtain ⟨h1, h2, h3⟩ := h
      subst h2; subst h3
      obtain ⟨hw1, hw2, hw3, _⟩ := wait_next_millis_spec clock last fuel (n + 1) ts2 n2 hwx
      refine ⟨hid, rfl, rfl, hs', ?_, ?_, by omega, ?_, by dsimp only; omega⟩
      · dsimp only; rw [hw3]; exact hlo (n2 - 1)
      · dsimp only; rw [hw3]; exact hhi (n2 - 1)
      · dsimp only; rw [hw3]; exact hmono (by omega)

-- Splitting a run of a + b calls.
lemma runN_add (clock : Nat → Nat) (fuel : Nat) (a b : Nat) :
    ∀ g n, Snowflake.runN clock fuel (a + b) g n =
      match Snowflake.runN clock fuel a g n with
      | none => none
      | some (ids1, g1, n1) =>
        match Snowflake.runN clock fuel b g1 n1 with
        | none => none
        | some (ids2, g2, n2) => some (ids1 ++ ids2, g2, n2) := by
  induction a with
  | zero =>
    intro g n
    simp only [Nat.zero_add, Snowflake.runN]
    cases Snowflake.runN clock fuel b g n with
    | none => rfl
    | some q => rfl
  | succ a ih =>
    intro g n
    rw [show a + 1 + b = (a + b) + 1 from by omega]
    rw [Snowflake.runN, Snowflake.runN]
    cases hx : Snowflake.next_id clock fuel g n with
    | none => rfl
    | some p =>
      obtain ⟨id, g1, n1⟩ := p
      dsimp only
      rw [ih g1 n1]
      cases hy : Snowflake.runN clock fuel a g1 n1 with
      | none => rfl
      | some q =>
        obtain ⟨ids1, g2, n2⟩ := q
        dsimp only
        cases hz : Snowflake.runN clock fuel b g2 n2 with
        | none => rfl
        | some r =>
          obtain ⟨ids2, g3, n3⟩ := r
          simp

-- A run of k calls all landing in the held millisecond T: the k returned ids
-- carry the consecutive sequence values s + 1, ..., s + k.
lemma runN_same_ms (clock : Nat → Nat) (fuel : Nat) (dc mc T : Nat) :
    ∀ k s n, s + k ≤ 4095 → (∀ j, j < k → clock (n + j) = T) →
      Snowflake.runN clock fuel k ⟨dc, mc, s, T⟩ n =
        some ((List.range' (s + 1) k).map (fun q => Snowflake.encode_u64 T dc mc q),
              ⟨dc, mc, s + k, T⟩, n + k) := by
  intro k
  induction k with
  | zero => intro s n _ _; simp [Snowflake.runN]
  | succ k ih =>
    intro s n hk hc
    have h0 : clock n = T := by
      have := hc 0 (by omega)
      simpa using this
    rw [Snowflake.runN,
      next_id_same_ms clock fuel dc mc s T n h0 (by omega)]
    dsimp only
    rw [ih (s + 1) (n + 1) (by omega) (fun j hj => by
        have := hc (j + 1) (by omega)
        rwa [show n + (j + 1) = n + 1 + j from by omega] at this)]
    rw [List.range'_succ, List.map_cons]
    simp only [Option.some.injEq, Prod.mk.injEq, Snowflake.mk.injEq, true_and, and_true]
    exact ⟨by omega, by omega⟩

-- Every successful run from a state with a committed (post-epoch) timestamp
-- yields ids strictly above the encoding of that state, in a strict chain.
lemma runN_chain (clock : Nat → Nat) (hmono : Monotone clock)
    (hlo : ∀ m, CUSTOM_EPOCH ≤ clock m) (hhi : ∀ m, clock m < CUSTOM_EPOCH + 2 ^ 42)
    (fuel : Nat) (N : Nat) :
    ∀ g n ids g' n', g.sequence ≤ 4095 → g.last_timestamp ≤ clock n →
      g.datacenter_id ≤ 31 → g.machine_id ≤ 31 →
      CUSTOM_EPOCH ≤ g.last_timestamp → g.last_timestamp < CUSTOM_EPOCH + 2 ^ 42 →
      Snowflake.runN clock fuel N g n = some (ids, g', n') →
      List.Chain' (· < ·)
        (Snowflake.encode_u64 g.last_timestamp g.datacenter_id g.machine_id g.sequence
          :: ids) := by
  induction N with
  | zero =>
    intro g n ids g' n' _ _ _ _ _ _ h
    simp only [Snowflake.runN, Option.some.injEq, Prod.mk.injEq] at h
    obtain ⟨h1, _, _⟩ := h
    subst h1
    simp
  | succ N ih =>
    intro g n ids g' n' hseq hlast hdc hmc hepo hbd h
    rw [Snowflake.runN] at h
    cases hx : Snowflake.next_id clock fuel g n with
    | none => rw [hx] at h; exact absurd h (by simp)
    | some p =>
      obtain ⟨id, g1, n1⟩ := p
      rw [hx] at h
      dsimp only at h
      cases hy : Snowflake.runN clock fuel N g1 n1 with
      | none => rw [hy] at h; exact absurd h (by simp)
      | some q =>
        obtain ⟨ids1, g2, n2⟩ := q
        rw [hy] at h
        dsimp only at h
        simp only [Option.some.injEq, Prod.mk.injEq] at h
        obtain ⟨h1, _, _⟩ := h
        subst h1
        obtain ⟨hid, hdc1, hmc1, hs1, he1, hb1, _, hc1, hlex⟩ :=
          next_id_step clock hmono hlo hhi fuel g n hseq hlast id g1 n1 hx
        have htail := ih g1 n1 ids1 g2 n2 hs1 hc1 (hdc1 ▸ hdc) (hmc1 ▸ hmc) he1 hb1 hy
        have hid' : id = Snowflake.encode_u64 g1.last_timestamp g1.datacenter_id
            g1.machine_id g1.sequence := by rw [hid, hdc1, hmc1]
        rw [← hid'] at htail
        refine List.chain'_cons.mpr ⟨?_, htail⟩
        rw [hid', hdc1, hmc1]
        refine encode_lt_encode g.datacenter_id g.machine_id
          g.last_timestamp g.sequence g1.last_timestamp g1.sequence
          hdc hmc hepo hbd he1 hb1 hseq hs1 ?_
        rcases hlex with hl | ⟨hl, hl'⟩
        · exact Or.inl hl
        · exact Or.inr ⟨hl, by omega⟩

-- ------------------------------------------------------------------
-- Claim theorems
-- ------------------------------------------------------------------

/-- Claim C4: new(dc, mc) fails fatally exactly when dc > 31 or mc > 31
(new(32,0) and new(0,32) fail, new(31,31) succeeds); on success the generator
starts with sequence = 0 and last_timestamp = 0 and the given identity, and
no next_id call ever changes datacenter_id or machine_id. -/
theorem C4_new_validation :
    (∀ dc mc : Nat, (Snowflake.new dc mc).isSome ↔ (dc ≤ 31 ∧ mc ≤ 31)) ∧
    Snowflake.new 32 0 = none ∧
    Snowflake.new 0 32 = none ∧
    Snowflake.new 31 31 = some ⟨31, 31, 0, 0⟩ ∧
    (∀ dc mc g, Snowflake.new dc mc = some g → g = ⟨dc, mc, 0, 0⟩) ∧
    (∀ clock fuel g n id g' n', Snowflake.next_id clock fuel g n = some (id, g', n') →
      g'.datacenter_id = g.datacenter_id ∧ g'.machine_id = g.machine_id) := by
  refine ⟨?_, by decide, by decide, by decide, ?_, ?_⟩
  · intro dc mc
    unfold Snowflake.new
    rw [(by decide : MAX_DATACENTER = 31), (by decide : MAX_MACHINE = 31)]
    by_cases hd : dc > 31
    · rw [if_pos hd]; simp; omega
    · rw [if_neg hd]
      by_cases hm : mc > 31
      · rw [if_pos hm]; simp; omega
      · rw [if_neg hm]; simp; omega
  · intro dc mc g hg
    unfold Snowflake.new at hg
    by_cases hd : dc > MAX_DATACENTER
    · rw [if_pos hd] at hg; exact absurd hg (by simp)
    · rw [if_neg hd] at hg
      by_cases hm : mc > MAX_MACHINE
      · rw [if_pos hm] at hg; exact absurd hg (by simp)
      · rw [if_neg hm] at hg
        simp only [Option.some.injEq] at hg
        exact hg.symm
  · intro clock fuel g n id g' n' h
    obtain ⟨_, h1, h2, _⟩ := next_id_shape clock fuel g n id g' n' h
    exact ⟨h1, h2⟩

theorem C4_new_validation_witness :
    (Snowflake.new 31 31).isSome ∧ ((5 : Nat) ≤ 31 ∧ (7 : Nat) ≤ 31) := by
  constructor
  · exact (C4_new_validation.1 31 31).mpr ⟨by omega, by omega⟩
  · exact (C4_new_validation.1 5 7).mp (by decide)

/-- Claim C7: decode is total on 64-bit inputs and its components always lie
in range: datacenter_id and machine_id in 0..31, sequence in 0..4095,
timestamp at least the custom epoch. -/
theorem C7_decode_total (id : Nat) (h : id < 2 ^ 64) :
    (Snowflake.decode id).2.1 ≤ 31 ∧ (Snowflake.decode id).2.2.1 ≤ 31 ∧
    (Snowflake.decode id).2.2.2 ≤ 4095 ∧ CUSTOM_EPOCH ≤ (Snowflake.decode id).1 := by
  unfold Snowflake.decode
  dsimp only
  rw [MAX_SEQUENCE_eq, MAX_MACHINE_eq, MAX_DATACENTER_eq,
    Nat.and_pow_two_sub_one_eq_mod, Nat.and_pow_two_sub_one_eq_mod,
    Nat.and_pow_two_sub_one_eq_mod]
  refine ⟨by omega, by omega, by omega, Nat.le_add_left _ _⟩

theorem C7_decode_total_witness :
    (Snowflake.decode 123456789).2.1 ≤ 31 ∧ (Snowflake.decode 123456789).2.2.1 ≤ 31 ∧
    (Snowflake.decode 123456789).2.2.2 ≤ 4095 ∧
    CUSTOM_EPOCH ≤ (Snowflake.decode 123456789).1 :=
  C7_decode_total 123456789 (by norm_num)

/-- Claim C9: re-packing the four decoded components of any 64-bit value by
the encoding formula gives back exactly that value, including values with
bit 63 set. -/
theorem C9_decode_repack (id : Nat) (h : id < 2 ^ 64) :
    Snowflake.encode_u64 (Snowflake.decode id).1 (Snowflake.decode id).2.1
      (Snowflake.decode id).2.2.1 (Snowflake.decode id).2.2.2 = id := by
  unfold Snowflake.decode
  dsimp only
  rw [MAX_SEQUENCE_eq, MAX_MACHINE_eq, MAX_DATACENTER_eq,
    Nat.and_pow_two_sub_one_eq_mod, Nat.and_pow_two_sub_one_eq_mod,
    Nat.and_pow_two_sub_one_eq_mod, TIMESTAMP_SHIFT_eq, DATACENTER_SHIFT_eq,
    MACHINE_SHIFT_eq, Nat.shiftRight_eq_div_pow, Nat.shiftRight_eq_div_pow,
    Nat.shiftRight_eq_div_pow]
  rw [encode_u64_eq _ _ _ _ (Nat.le_add_left _ _) (by omega) (by omega) (by omega)
    (by omega)]
  omega

theorem C9_decode_repack_witness :
    Snowflake.encode_u64 (Snowflake.decode (2 ^ 63 + 12345)).1
      (Snowflake.decode (2 ^ 63 + 12345)).2.1
      (Snowflake.decode (2 ^ 63 + 12345)).2.2.1
      (Snowflake.decode (2 ^ 63 + 12345)).2.2.2 = 2 ^ 63 + 12345 :=
  C9_decode_repack (2 ^ 63 + 12345) (by norm_num)

/-- Claim C10: the encode step subtracts the custom epoch with an unguarded
u64 subtraction, well-defined exactly when the committed timestamp is at
least the epoch; a clock before the epoch is committed as-is and makes the
subtraction wrap into garbage (high bit set), a precondition the spec never
states. -/
theorem C10_epoch_underflow :
    (∀ ts, CUSTOM_EPOCH ≤ ts → ts < 2 ^ 64 →
      u64_sub ts CUSTOM_EPOCH = ts - CUSTOM_EPOCH) ∧
    (∀ ts, ts < CUSTOM_EPOCH → 2 ^ 63 < u64_sub ts CUSTOM_EPOCH) ∧
    Snowflake.next_id clock_low 1 ⟨1, 1, 0, 0⟩ 0 =
      some (Snowflake.encode_u64 1000 1 1 0, ⟨1, 1, 0, 1000⟩, 1) ∧
    1000 < CUSTOM_EPOCH ∧
    2 ^ 63 < Snowflake.encode_u64 1000 1 1 0 := by
  refine ⟨?_, ?_, by decide, by decide, by decide⟩
  · intro ts h1 h2
    exact u64_sub_eq_of_le h1 (by unfold U64_MOD; omega)
  · intro ts h
    unfold u64_sub u64_wrap U64_MOD CUSTOM_EPOCH at *
    omega

theorem C10_epoch_underflow_witness :
    u64_sub (CUSTOM_EPOCH + 5) CUSTOM_EPOCH = 5 ∧
    2 ^ 63 < u64_sub 1000 CUSTOM_EPOCH := by
  constructor
  · have h := C10_epoch_underflow.1 (CUSTOM_EPOCH + 5) (by omega)
      (by unfold CUSTOM_EPOCH; norm_num)
    rw [h]
    omega
  · exact C10_epoch_underflow.2.1 1000 (by unfold CUSTOM_EPOCH; norm_num)

/-- Claim C1 (amended): for a generator with a valid identity, any successful
next_id call whose committed timestamp lies in [CUSTOM_EPOCH,
CUSTOM_EPOCH + 2^42) returns an id that decodes to exactly the committed
timestamp, the constructed datacenter and machine ids, and the chosen
sequence, which lies in 0..4095; the decoded timestamp is at least the
custom epoch. -/
theorem C1_roundtrip (clock : Nat → Nat) (fuel : Nat) (g : Snowflake) (n : Nat)
    (hdc : g.datacenter_id ≤ 31) (hmc : g.machine_id ≤ 31)
    (id : Nat) (g' : Snowflake) (n' : Nat)
    (h : Snowflake.next_id clock fuel g n = some (id, g', n'))
    (hts1 : CUSTOM_EPOCH ≤ g'.last_timestamp)
    (hts2 : g'.last_timestamp < CUSTOM_EPOCH + 2 ^ 42) :
    Snowflake.decode id =
      (g'.last_timestamp, g.datacenter_id, g.machine_id, g'.sequence) ∧
    g'.sequence ≤ 4095 ∧ CUSTOM_EPOCH ≤ (Snowflake.decode id).1 := by
  obtain ⟨hid, _, _, hs⟩ := next_id_shape clock fuel g n id g' n' h
  have hdec : Snowflake.decode id =
      (g'.last_timestamp, g.datacenter_id, g.machine_id, g'.sequence) := by
    rw [hid, decode_encode _ _ _ _ hts1 hts2 hdc hmc hs]
  refine ⟨hdec, hs, ?_⟩
  rw [hdec]
  exact hts1

theorem C1_roundtrip_witness :
    Snowflake.decode 135168 = (CUSTOM_EPOCH, 1, 1, 0) ∧
    (0 : Nat) ≤ 4095 ∧ CUSTOM_EPOCH ≤ (Snowflake.decode 135168).1 :=
  C1_roundtrip clock_epoch 1 ⟨1, 1, 0, 0⟩ 0 (by decide) (by decide)
    135168 ⟨1, 1, 0, CUSTOM_EPOCH⟩ 1 (by decide) (Nat.le_refl _) (by decide)

/-- Claim C1 fails as stated: with the clock at CUSTOM_EPOCH + 2^42 (at or
after the epoch) and a generator built by new(0,0), the 42-bit offset is
shifted out mod 2^64, the returned id is 0, and decode gives back the epoch
rather than the committed timestamp. -/
theorem C1_counterexample :
    Snowflake.new 0 0 = some ⟨0, 0, 0, 0⟩ ∧
    CUSTOM_EPOCH ≤ clock_big 0 ∧
    Snowflake.next_id clock_big 1 ⟨0, 0, 0, 0⟩ 0 =
      some (0, ⟨0, 0, 0, CUSTOM_EPOCH + 2 ^ 42⟩, 1) ∧
    (Snowflake.decode 0).1 ≠ CUSTOM_EPOCH + 2 ^ 42 := by decide

/-- Claim C3: every id returned by next_id equals
((timestamp - CUSTOM_EPOCH) << 22) | (dc << 17) | (mc << 12) | sequence in
u64 arithmetic, for the committed timestamp and sequence; and whenever the
committed timestamp offset fits its 41-bit field and the identity is valid,
the sequence occupies bits 0-11, the machine id bits 12-16, the datacenter
id bits 17-21 and the timestamp offset bits 22-62, with bit 63 clear. -/
theorem C3_bit_layout (clock : Nat → Nat) (fuel : Nat) (g : Snowflake) (n : Nat)
    (id : Nat) (g' : Snowflake) (n' : Nat)
    (h : Snowflake.next_id clock fuel g n = some (id, g', n')) :
    id = u64_wrap (u64_sub g'.last_timestamp CUSTOM_EPOCH <<< 22) |||
         u64_wrap (g.datacenter_id <<< 17) |||
         u64_wrap (g.machine_id <<< 12) |||
         u64_wrap g'.sequence ∧
    (CUSTOM_EPOCH ≤ g'.last_timestamp → g'.last_timestamp < CUSTOM_EPOCH + 2 ^ 41 →
      g.datacenter_id ≤ 31 → g.machine_id ≤ 31 →
      id % 2 ^ 12 = g'.sequence ∧
      id / 2 ^ 12 % 2 ^ 5 = g.machine_id ∧
      id / 2 ^ 17 % 2 ^ 5 = g.datacenter_id ∧
      id / 2 ^ 22 = g'.last_timestamp - CUSTOM_EPOCH ∧
      id < 2 ^ 63) := by
  obtain ⟨hid, _, _, hs⟩ := next_id_shape clock fuel g n id g' n' h
  constructor
  · rw [hid]
    unfold Snowflake.encode_u64
    rw [TIMESTAMP_SHIFT_eq, DATACENTER_SHIFT_eq, MACHINE_SHIFT_eq]
  · intro h1 h2 h3 h4
    have hts : g'.last_timestamp - CUSTOM_EPOCH < 2 ^ 41 := by
      unfold CUSTOM_EPOCH at *
      omega
    rw [hid, encode_u64_eq _ _ _ _ h1 (by omega) h3 h4 hs]
    refine ⟨by omega, by omega, by omega, by omega, by omega⟩

theorem C3_bit_layout_witness :
    (135168 : Nat) = u64_wrap (u64_sub CUSTOM_EPOCH CUSTOM_EPOCH <<< 22) |||
      u64_wrap (1 <<< 17) ||| u64_wrap (1 <<< 12) ||| u64_wrap 0 ∧
    (135168 : Nat) % 2 ^ 12 = 0 ∧ (135168 : Nat) / 2 ^ 12 % 2 ^ 5 = 1 ∧
    (135168 : Nat) / 2 ^ 17 % 2 ^ 5 = 1 ∧
    (135168 : Nat) / 2 ^ 22 = CUSTOM_EPOCH - CUSTOM_EPOCH ∧ (135168 : Nat) < 2 ^ 63 := by
  have h := C3_bit_layout clock_epoch 1 ⟨1, 1, 0, 0⟩ 0 135168
    ⟨1, 1, 0, CUSTOM_EPOCH⟩ 1 (by decide)
  have h2 := h.2 (Nat.le_refl _) (by unfold CUSTOM_EPOCH; norm_num)
    (by decide) (by decide)
  exact ⟨h.1, h2.1, h2.2.1, h2.2.2.1, h2.2.2.2.1, h2.2.2.2.2⟩

/-- Claim C6 (amended): when a call observes a clock reading strictly below
last_timestamp, it re-reads the clock until it obtains a reading strictly
greater than last_timestamp (a reading equal to last_timestamp is rejected
and waiting continues), commits that first strictly greater reading as the
call timestamp, and resets the sequence to 0. -/
theorem C6_clock_regression (clock : Nat → Nat) (fuel : Nat) (g : Snowflake)
    (n : Nat) (hback : clock n < g.last_timestamp)
    (id : Nat) (g' : Snowflake) (n' : Nat)
    (h : Snowflake.next_id clock fuel g n = some (id, g', n')) :
    g.last_timestamp < g'.last_timestamp ∧
    g'.sequence = 0 ∧
    g'.last_timestamp = clock (n' - 1) ∧
    (∀ j, n + 1 ≤ j → j < n' - 1 → clock j ≤ g.last_timestamp) ∧
    id = Snowflake.encode_u64 g'.last_timestamp g.datacenter_id g.machine_id 0 := by
  obtain ⟨dc, mc, s, last⟩ := g
  dsimp only at hback ⊢
  unfold Snowflake.next_id at h
  rw [if_pos (by dsimp only; omega)] at h
  dsimp only at h
  cases hw : Snowflake.wait_next_millis clock last fuel (n + 1) with
  | none => rw [hw] at h; exact absurd h (by simp)
  | some p =>
    obtain ⟨ts1, n1⟩ := p
    rw [hw] at h
    dsimp only at h
    obtain ⟨hw1, hw2, hw3, hw4⟩ := wait_next_millis_spec clock last fuel (n + 1) ts1 n1 hw
    rw [if_neg (by omega)] at h
    simp only [Option.some.injEq, Prod.mk.injEq] at h
    obtain ⟨h1, h2, h3⟩ := h
    subst h2; subst h3
    exact ⟨hw1, rfl, hw3, hw4, h1.symm⟩

theorem C6_clock_regression_witness :
    (⟨1, 1, 5, CUSTOM_EPOCH + 100⟩ : Snowflake).last_timestamp <
      (⟨1, 1, 0, CUSTOM_EPOCH + 101⟩ : Snowflake).last_timestamp ∧
    (⟨1, 1, 0, CUSTOM_EPOCH + 101⟩ : Snowflake).sequence = 0 := by
  have h := C6_clock_regression clock_back 3 ⟨1, 1, 5, CUSTOM_EPOCH + 100⟩ 0
    (by decide) (Snowflake.encode_u64 (CUSTOM_EPOCH + 101) 1 1 0)
    ⟨1, 1, 0, CUSTOM_EPOCH + 101⟩ 3 (by decide)
  exact ⟨h.1, h.2.1⟩

/-- Claim C6 fails as stated: with last_timestamp = epoch+100 and re-reads
epoch+100 (equal) then epoch+101, the call does not accept the equal reading
and does not continue that millisecond's sequence; it commits epoch+101 with
sequence reset to 0. -/
theorem C6_counterexample :
    clock_back 0 < CUSTOM_EPOCH + 100 ∧
    clock_back 1 = CUSTOM_EPOCH + 100 ∧
    Snowflake.next_id clock_back 3 ⟨1, 1, 5, CUSTOM_EPOCH + 100⟩ 0 =
      some (Snowflake.encode_u64 (CUSTOM_EPOCH + 101) 1 1 0,
            ⟨1, 1, 0, CUSTOM_EPOCH + 101⟩, 3) ∧
    CUSTOM_EPOCH + 101 ≠ CUSTOM_EPOCH + 100 ∧
    (0 : Nat) ≠ 5 + 1 := by decide

/-- Claim C2 (amended): with a never-backward clock whose readings all lie in
[CUSTOM_EPOCH, CUSTOM_EPOCH + 2^42), any number of sequential next_id calls
on a generator built by new returns strictly increasing 64-bit ids. -/
theorem C2_monotonic (clock : Nat → Nat) (hmono : Monotone clock)
    (hlo : ∀ m, CUSTOM_EPOCH ≤ clock m) (hhi : ∀ m, clock m < CUSTOM_EPOCH + 2 ^ 42)
    (fuel N dc mc : Nat) (g0 : Snowflake) (hg : Snowflake.new dc mc = some g0)
    (ids : List Nat) (g' : Snowflake) (n' : Nat)
    (h : Snowflake.runN clock fuel N g0 0 = some (ids, g', n')) :
    List.Pairwise (· < ·) ids := by
  have hvalid : g0 = ⟨dc, mc, 0, 0⟩ ∧ dc ≤ 31 ∧ mc ≤ 31 := by
    unfold Snowflake.new at hg
    by_cases h1 : dc > MAX_DATACENTER
    · rw [if_pos h1] at hg; exact absurd hg (by simp)
    · rw [if_neg h1] at hg
      by_cases h2 : mc > MAX_MACHINE
      · rw [if_pos h2] at hg; exact absurd hg (by simp)
      · rw [if_neg h2] at hg
        simp only [Option.some.injEq] at hg
        rw [(by decide : MAX_DATACENTER = 31)] at h1
        rw [(by decide : MAX_MACHINE = 31)] at h2
        exact ⟨hg.symm, by omega, by omega⟩
  obtain ⟨hg0, hdc, hmc⟩ := hvalid
  subst hg0
  cases N with
  | zero =>
    simp only [Snowflake.runN, Option.some.injEq, Prod.mk.injEq] at h
    rw [← h.1]
    exact List.Pairwise.nil
  | succ N =>
    rw [Snowflake.runN] at h
    cases hx : Snowflake.next_id clock fuel ⟨dc, mc, 0, 0⟩ 0 with
    | none => rw [hx] at h; exact absurd h (by simp)
    | some p =>
      obtain ⟨id, g1, n1⟩ := p
      rw [hx] at h
      dsimp only at h
      cases hy : Snowflake.runN clock fuel N g1 n1 with
      | none => rw [hy] at h; exact absurd h (by simp)
      | some q =>
        obtain ⟨ids1, g2, n2⟩ := q
        rw [hy] at h
        dsimp only at h
        simp only [Option.some.injEq, Prod.mk.injEq] at h
        obtain ⟨hids, _, _⟩ := h
        subst hids
        obtain ⟨hid, hdc1, hmc1, hs1, he1, hb1, _, hc1, _⟩ :=
          next_id_step clock hmono hlo hhi fuel ⟨dc, mc, 0, 0⟩ 0
            (Nat.zero_le _) (Nat.zero_le _) id g1 n1 hx
        have hchain := runN_chain clock hmono hlo hhi fuel N g1 n1 ids1 g2 n2
          hs1 hc1 (by rw [hdc1]; exact hdc) (by rw [hmc1]; exact hmc) he1 hb1 hy
        have hid' : id = Snowflake.encode_u64 g1.last_timestamp g1.datacenter_id
            g1.machine_id g1.sequence := by rw [hid, hdc1, hmc1]
        rw [← hid'] at hchain
        exact List.chain'_iff_pairwise.mp hchain

theorem C2_monotonic_witness :
    List.Pairwise (· < ·) [135168, 135169, 135170] :=
  C2_monotonic clock_epoch (fun _ _ _ => Nat.le_refl _)
    (fun _ => Nat.le_refl _)
    (fun _ => by unfold clock_epoch CUSTOM_EPOCH; norm_num)
    1 3 1 1 ⟨1, 1, 0, 0⟩ (by decide)
    [135168, 135169, 135170] ⟨1, 1, 2, CUSTOM_EPOCH⟩ 3 (by decide)

/-- Claim C2 fails as stated: a clock that never moves backward but whose
readings straddle the custom epoch (epoch-1 then epoch) makes the wrapped
encoding jump down, so the second id is smaller than the first. -/
theorem C2_counterexample :
    clock_cross 0 ≤ clock_cross 1 ∧ clock_cross 1 ≤ clock_cross 2 ∧
    Snowflake.runN clock_cross 1 2 ⟨1, 1, 0, 0⟩ 0 =
      some ([Snowflake.encode_u64 (CUSTOM_EPOCH - 1) 1 1 0,
             Snowflake.encode_u64 CUSTOM_EPOCH 1 1 0],
            ⟨1, 1, 0, CUSTOM_EPOCH⟩, 2) ∧
    Snowflake.encode_u64 CUSTOM_EPOCH 1 1 0 <
      Snowflake.encode_u64 (CUSTOM_EPOCH - 1) 1 1 0 := by decide

-- Decoding the sequence field of ids encoded at the epoch millisecond.
lemma map_decode_seq (l : List Nat) (hl : ∀ q ∈ l, q ≤ 4095) :
    (l.map (fun q => Snowflake.encode_u64 CUSTOM_EPOCH 1 1 q)).map
      (fun id => (Snowflake.decode id).2.2.2) = l := by
  induction l with
  | nil => rfl
  | cons a l ih =>
    rw [List.map_cons, List.map_cons]
    rw [decode_encode CUSTOM_EPOCH 1 1 a (Nat.le_refl _) (by omega) (by omega)
      (by omega) (hl a (by simp))]
    rw [ih (fun q hq => hl q (by simp [hq]))]

-- Decoding the timestamp field of ids encoded at the epoch millisecond.
lemma map_decode_ts (l : List Nat) (hl : ∀ q ∈ l, q ≤ 4095) :
    (l.map (fun q => Snowflake.encode_u64 CUSTOM_EPOCH 1 1 q)).map
      (fun id => (Snowflake.decode id).1) = l.map (fun _ => CUSTOM_EPOCH) := by
  induction l with
  | nil => rw [List.map_nil, List.map_nil, List.map_nil]
  | cons a l ih =>
    rw [List.map_cons, List.map_cons, List.map_cons]
    rw [decode_encode CUSTOM_EPOCH 1 1 a (Nat.le_refl _) (by omega) (by omega)
      (by omega) (hl a (by simp))]
    rw [ih (fun q hq => hl q (by simp [hq]))]

lemma range'_le_4095 : ∀ q ∈ List.range' 0 4096, q ≤ 4095 := by
  intro q hq
  obtain ⟨i, hi, hq⟩ := List.mem_range'.mp hq
  omega

/-- Claim C5: from a fresh generator under a clock held at one millisecond
(CUSTOM_EPOCH for 4097 reads, then one ms later), the first 4096 next_id
calls return that millisecond with sequences 0 through 4095, and the 4097th
call busy-waits, commits the strictly greater millisecond CUSTOM_EPOCH + 1,
and returns an id whose sequence field is 0. -/
theorem C5_sequence_exhaustion :
    Snowflake.runN clock_hold 2 4097 ⟨1, 1, 0, 0⟩ 0 =
      some (ids_C5, ⟨1, 1, 0, CUSTOM_EPOCH + 1⟩, 4098) ∧
    ids_C5.map (fun id => (Snowflake.decode id).2.2.2) = List.range 4096 ++ [0] ∧
    ids_C5.map (fun id => (Snowflake.decode id).1) =
      List.replicate 4096 CUSTOM_EPOCH ++ [CUSTOM_EPOCH + 1] := by
  have hone : Snowflake.runN clock_hold 2 1 ⟨1, 1, 0, 0⟩ 0 =
      some ([Snowflake.encode_u64 CUSTOM_EPOCH 1 1 0], ⟨1, 1, 0, CUSTOM_EPOCH⟩, 1) := by
    decide
  have hmid := runN_same_ms clock_hold 2 1 1 CUSTOM_EPOCH 4095 0 1 (by omega)
    (fun j hj => by
      unfold clock_hold
      rw [if_pos (by omega)])
  norm_num at hmid
  have hlast : Snowflake.runN clock_hold 2 1 ⟨1, 1, 4095, CUSTOM_EPOCH⟩ 4096 =
      some ([Snowflake.encode_u64 (CUSTOM_EPOCH + 1) 1 1 0],
            ⟨1, 1, 0, CUSTOM_EPOCH + 1⟩, 4098) := by decide
  have hlist : [Snowflake.encode_u64 CUSTOM_EPOCH 1 1 0] ++
      ((List.range' 1 4095).map (fun q => Snowflake.encode_u64 CUSTOM_EPOCH 1 1 q) ++
       [Snowflake.encode_u64 (CUSTOM_EPOCH + 1) 1 1 0]) = ids_C5 := by
    unfold ids_C5
    conv_rhs => rw [show (4096 : Nat) = 4095 + 1 from by norm_num, List.range'_succ,
      List.map_cons]
    simp only [List.cons_append, List.nil_append, List.singleton_append]
  have key : Snowflake.runN clock_hold 2 4097 ⟨1, 1, 0, 0⟩ 0 =
      some (ids_C5, ⟨1, 1, 0, CUSTOM_EPOCH + 1⟩, 4098) := by
    rw [show (4097 : Nat) = 1 + 4096 from by norm_num, runN_add, hone]
    dsimp only
    rw [show (4096 : Nat) = 4095 + 1 from by norm_num, runN_add, hmid]
    dsimp only
    rw [hlast]
    dsimp only
    rw [hlist]
  refine ⟨key, ?_, ?_⟩
  · unfold ids_C5
    rw [List.map_append, map_decode_seq _ range'_le_4095, List.map_cons, List.map_nil]
    rw [decode_encode (CUSTOM_EPOCH + 1) 1 1 0 (by omega) (by omega) (by omega)
      (by omega) (by omega)]
    rw [List.range_eq_range']
  · unfold ids_C5
    rw [List.map_append, map_decode_ts _ range'_le_4095, List.map_const',
      List.map_cons, List.map_nil]
    rw [decode_encode (CUSTOM_EPOCH + 1) 1 1 0 (by omega) (by omega) (by omega)
      (by omega) (by omega)]
    rw [List.length_range']

/-- Claim C8 fails on the code: with the two fields held in independent
relaxed atomics, the interleaving in which both calls pass their atomic
loads before either stores makes both calls compute the same (timestamp,
sequence) pair and return the same id, while the fully sequential schedule
of the same two calls returns distinct ids. -/
theorem C8_race :
    (runSched (CUSTOM_EPOCH + 7) 1 1 schedAB sysInit).tA.pc = 8 ∧
    (runSched (CUSTOM_EPOCH + 7) 1 1 schedAB sysInit).tB.pc = 8 ∧
    (runSched (CUSTOM_EPOCH + 7) 1 1 schedAB sysInit).tA.result =
      some (Snowflake.encode_u64 (CUSTOM_EPOCH + 7) 1 1 0) ∧
    (runSched (CUSTOM_EPOCH + 7) 1 1 schedAB sysInit).tB.result =
      some (Snowflake.encode_u64 (CUSTOM_EPOCH + 7) 1 1 0) ∧
    (runSched (CUSTOM_EPOCH + 7) 1 1 schedSeq sysInit).tA.pc = 8 ∧
    (runSched (CUSTOM_EPOCH + 7) 1 1 schedSeq sysInit).tB.pc = 8 ∧
    (runSched (CUSTOM_EPOCH + 7) 1 1 schedSeq sysInit).tA.result ≠
      (runSched (CUSTOM_EPOCH + 7) 1 1 schedSeq sysInit).tB.result := by decide

end SnowflakeRS
